import Mathlib

/-!
Verification of the bin2hex record encoders (Intel HEX and Motorola
S-Record) against their natural-language specification.  The definitions
below are a shallow embedding of `src/BinaryUtils.hpp`,
`src/HexConverter.cpp` and `src/SRecordConverter.cpp`: machine integers
are modelled as `Nat` with explicit `% 2^w` where the C++ code casts or
wraps, byte buffers as `List Nat`, and the output file as the list of
emitted lines.  The while-loops of the converters are modelled with a
fuel parameter equal to the buffer length; since every iteration of the
source loops consumes at least one buffer byte (the configured
bytes-per-line is clamped to be at least 1), this fuel is always enough.
-/

/-- `BinaryUtils::nibble_to_hex`: 4-bit value to uppercase hex character. -/
def BinaryUtils.nibble_to_hex (nibble : Nat) : Char :=
  if nibble < 10 then Char.ofNat (48 + nibble) else Char.ofNat (65 + nibble - 10)

/-- `BinaryUtils::byte_to_hex`: byte to two uppercase hex characters. -/
def BinaryUtils.byte_to_hex (value : Nat) : String :=
  String.mk [BinaryUtils.nibble_to_hex ((value / 16) % 16), BinaryUtils.nibble_to_hex (value % 16)]

/-- One Intel HEX record, as the argument tuple the source passes to
`IntelHexConverter::generate_record`: byte count, 16-bit address field,
record type, payload bytes. -/
structure IntelRecord where
  byteCount : Nat
  address : Nat
  recordType : Nat
  data : List Nat
deriving Repr, DecidableEq

/-- Record type `DATA_RECORD = 0x00`. -/
def IntelHexConverter.DATA_RECORD : Nat := 0

/-- Record type `EOF_RECORD = 0x01`. -/
def IntelHexConverter.EOF_RECORD : Nat := 1

/-- Record type `EXTENDED_LINEAR_ADDRESS = 0x04`. -/
def IntelHexConverter.EXTENDED_LINEAR_ADDRESS : Nat := 4

/-- `IntelHexConverter::calculate_checksum`: two's complement of the low
byte of the sum of byte count, the two address bytes, the record type and
the payload bytes. -/
def IntelHexConverter.calculate_checksum (byte_count address record_type : Nat)
    (data : List Nat) : Nat :=
  let sum := byte_count + (address / 256) % 256 + address % 256 + record_type +
    data.foldl (· + ·) 0
  (256 - sum % 256) % 256

/-- `IntelHexConverter::generate_record`: render one record as a line of text. -/
def IntelHexConverter.generate_record (byte_count address record_type : Nat)
    (data : List Nat) : String :=
  ":" ++ BinaryUtils.byte_to_hex byte_count
      ++ BinaryUtils.byte_to_hex ((address / 256) % 256)
      ++ BinaryUtils.byte_to_hex (address % 256)
      ++ BinaryUtils.byte_to_hex record_type
      ++ String.join (data.map BinaryUtils.byte_to_hex)
      ++ BinaryUtils.byte_to_hex
           (IntelHexConverter.calculate_checksum byte_count address record_type data)

/-- `IntelHexConverter::generate_extended_address_record`, as the record
structure it passes to `generate_record`: type 0x04, address field 0,
payload = the high 16 bits of the given address, big-endian. -/
def IntelHexConverter.extended_address_record (address : Nat) : IntelRecord :=
  let extended_addr := (address / 65536) % 65536
  ⟨2, 0, IntelHexConverter.EXTENDED_LINEAR_ADDRESS,
    [(extended_addr / 256) % 256, extended_addr % 256]⟩

/-- The while-loop of `IntelHexConverter::convert_to_hex` (source lines
27-61), emitting the extended-address and data records as structures.
Arguments: fuel, remaining buffer, bytes-per-line, `current_address`
(uint32), `extended_address` tracker (uint32, sentinel `0xFFFFFFFF`),
`use_extended_address`. -/
def IntelHexConverter.convertLoop :
    Nat → List Nat → Nat → Nat → Nat → Bool → List IntelRecord
  | 0, _, _, _, _, _ => []
  | _ + 1, [], _, _, _, _ => []
  | fuel + 1, b :: bs, bytes_per_line, current_address, extended_address,
      use_extended_address =>
    let binary_data := b :: bs
    let needExt := use_extended_address && (current_address / 65536 != extended_address)
    let extRecords :=
      if needExt then [IntelHexConverter.extended_address_record current_address] else []
    let extended_address2 := if needExt then current_address / 65536 else extended_address
    let bytes_remaining := binary_data.length
    let bytes_this_line0 := min bytes_per_line bytes_remaining
    let max_bytes_to_boundary := 65536 - current_address % 65536
    let bytes_this_line := min bytes_this_line0 max_bytes_to_boundary
    let line_data := binary_data.take bytes_this_line
    extRecords ++
      ⟨bytes_this_line % 256, current_address % 65536, IntelHexConverter.DATA_RECORD,
        line_data⟩ ::
      IntelHexConverter.convertLoop fuel (binary_data.drop bytes_this_line) bytes_per_line
        ((current_address + bytes_this_line) % 4294967296) extended_address2
        use_extended_address

/-- The constructor clamp of `IntelHexConverter`: bytes per line forced
into `[1, 255]`. -/
def IntelHexConverter.clamp_bytes_per_line (bytes_per_line : Nat) : Nat :=
  max 1 (min 255 bytes_per_line)

/-- `IntelHexConverter::convert_to_hex` as the list of records it emits:
the loop's records followed by the end-of-file record. -/
def IntelHexConverter.convert_records (binary_data : List Nat) (start_address : Nat)
    (bytes_per_line : Nat) (use_extended_address : Bool) : List IntelRecord :=
  IntelHexConverter.convertLoop binary_data.length binary_data
    (IntelHexConverter.clamp_bytes_per_line bytes_per_line) start_address 4294967295
    use_extended_address
  ++ [⟨0, 0, IntelHexConverter.EOF_RECORD, []⟩]

/-- Render one Intel record to its output line via `generate_record`. -/
def IntelHexConverter.render (r : IntelRecord) : String :=
  IntelHexConverter.generate_record r.byteCount r.address r.recordType r.data

/-- Result of an Intel HEX conversion: the boolean the function returns
and the lines written to the output file. -/
structure IntelResult where
  success : Bool
  lines : List String
deriving Repr, DecidableEq

/-- `IntelHexConverter::convert_to_hex` (file I/O abstracted away: the
output sink is the list of lines; nothing in the loop can fail). -/
def IntelHexConverter.convert_to_hex (binary_data : List Nat) (start_address : Nat)
    (bytes_per_line : Nat) (use_extended_address : Bool) : IntelResult :=
  { success := true,
    lines := (IntelHexConverter.convert_records binary_data start_address bytes_per_line
        use_extended_address).map IntelHexConverter.render }

/-- One Motorola S-Record, as the argument tuple the source passes to
`SRecordConverter::generate_record`: type, 32-bit address, payload. -/
structure SRecord where
  type : Nat
  address : Nat
  data : List Nat
deriving Repr, DecidableEq

/-- Record type `S0_HEADER = 0`. -/
def SRecordConverter.S0_HEADER : Nat := 0

/-- Record type `S5_COUNT_16 = 5`. -/
def SRecordConverter.S5_COUNT_16 : Nat := 5

/-- `SRecordConverter::get_address_bytes`: number of address bytes for a
record type. -/
def SRecordConverter.get_address_bytes (type : Nat) : Nat :=
  match type with
  | 0 | 1 | 5 | 9 => 2
  | 2 | 6 | 8 => 3
  | 3 | 7 => 4
  | _ => 2

/-- `SRecordConverter::get_data_record_type`. -/
def SRecordConverter.get_data_record_type (address_size : Nat) : Nat :=
  match address_size with
  | 16 => 1
  | 24 => 2
  | 32 => 3
  | _ => 3

/-- `SRecordConverter::get_end_record_type`. -/
def SRecordConverter.get_end_record_type (address_size : Nat) : Nat :=
  match address_size with
  | 16 => 9
  | 24 => 8
  | 32 => 7
  | _ => 7

/-- `SRecordConverter::calculate_checksum`: one's complement of the low
byte of the sum of byte count, the address bytes present for this
record's width, and the payload bytes (`~sum & 0xFF` = `255 - sum % 256`). -/
def SRecordConverter.calculate_checksum (byte_count address address_bytes : Nat)
    (data : List Nat) : Nat :=
  let sum0 := byte_count
  let sum1 := if 2 ≤ address_bytes then sum0 + (address / 256) % 256 + address % 256 else sum0
  let sum2 := if 3 ≤ address_bytes then sum1 + (address / 65536) % 256 else sum1
  let sum3 := if 4 ≤ address_bytes then sum2 + (address / 16777216) % 256 else sum2
  let sum4 := sum3 + data.foldl (· + ·) 0
  255 - sum4 % 256

/-- The address bytes of an S-Record as `SRecordConverter::generate_record`
emits them (source lines 108-118): first bits 15-8, then bits 7-0, then,
when present, bits 23-16, and last bits 31-24. -/
def SRecordConverter.address_field_bytes (address_bytes address : Nat) : List Nat :=
  (if 2 ≤ address_bytes then [(address / 256) % 256, address % 256] else []) ++
  (if 3 ≤ address_bytes then [(address / 65536) % 256] else []) ++
  (if 4 ≤ address_bytes then [(address / 16777216) % 256] else [])

/-- The byte-count field of an S-Record: `addr_bytes + data.size() + 1`
truncated by the `uint8_t` cast in `generate_record`. -/
def SRecordConverter.byteCountField (r : SRecord) : Nat :=
  (SRecordConverter.get_address_bytes r.type + r.data.length + 1) % 256

/-- `SRecordConverter::generate_record`: render one record as a line. -/
def SRecordConverter.generate_record (type address : Nat) (data : List Nat) : String :=
  let addr_bytes := SRecordConverter.get_address_bytes type
  let byte_count := (addr_bytes + data.length + 1) % 256
  "S" ++ toString type
      ++ BinaryUtils.byte_to_hex byte_count
      ++ String.join ((SRecordConverter.address_field_bytes addr_bytes address).map
           BinaryUtils.byte_to_hex)
      ++ String.join (data.map BinaryUtils.byte_to_hex)
      ++ BinaryUtils.byte_to_hex
           (SRecordConverter.calculate_checksum byte_count address addr_bytes data)

/-- Render one S-Record to its output line via `generate_record`. -/
def SRecordConverter.render (r : SRecord) : String :=
  SRecordConverter.generate_record r.type r.address r.data

/-- The data-record while-loop of `SRecordConverter::convert_to_srec`
(source lines 46-70).  Arguments: fuel, remaining buffer, bytes-per-line,
`current_address` (uint32), data record type. -/
def SRecordConverter.dataLoop : Nat → List Nat → Nat → Nat → Nat → List SRecord
  | 0, _, _, _, _ => []
  | _ + 1, [], _, _, _ => []
  | fuel + 1, b :: bs, bytes_per_line, current_address, data_type =>
    let binary_data := b :: bs
    let bytes_this_line0 := min bytes_per_line binary_data.length
    let addr_bytes := SRecordConverter.get_address_bytes data_type
    let max_data_bytes := 255 - addr_bytes - 1
    let bytes_this_line := min bytes_this_line0 max_data_bytes
    ⟨data_type, current_address, binary_data.take bytes_this_line⟩ ::
      SRecordConverter.dataLoop fuel (binary_data.drop bytes_this_line) bytes_per_line
        ((current_address + bytes_this_line) % 4294967296) data_type

/-- The constructor clamp of `SRecordConverter`: bytes per line forced
into `[1, 252]`. -/
def SRecordConverter.clamp_bytes_per_line (bytes_per_line : Nat) : Nat :=
  max 1 (min 252 bytes_per_line)

/-- Result of an S-Record conversion: the boolean the function returns,
the last-error string, and the emitted records. -/
structure SRecResult where
  success : Bool
  last_error : String
  srecords : List SRecord
deriving Repr, DecidableEq

/-- `SRecordConverter::convert_to_srec` (file I/O abstracted away): the
address-size validation, the optional header record, the data loop, the
optional record-count record, and the end record. -/
def SRecordConverter.convert_to_srec (bytes_per_line : Nat) (binary_data : List Nat)
    (start_address : Nat) (address_size : Nat) (header : List Nat) : SRecResult :=
  if address_size ≠ 16 ∧ address_size ≠ 24 ∧ address_size ≠ 32 then
    { success := false,
      last_error := "Invalid address size. Must be 16, 24, or 32 bits.",
      srecords := [] }
  else
    let bpl := SRecordConverter.clamp_bytes_per_line bytes_per_line
    let headerRecords : List SRecord :=
      if header ≠ [] then [⟨SRecordConverter.S0_HEADER, 0, header⟩] else []
    let data_type := SRecordConverter.get_data_record_type address_size
    let end_type := SRecordConverter.get_end_record_type address_size
    let dataRecords :=
      SRecordConverter.dataLoop binary_data.length binary_data bpl start_address data_type
    let record_count := dataRecords.length % 4294967296
    let countRecords : List SRecord :=
      if record_count ≤ 65535 then
        [⟨SRecordConverter.S5_COUNT_16, record_count,
          [(record_count / 256) % 256, record_count % 256]⟩]
      else []
    { success := true, last_error := "",
      srecords := headerRecords ++ dataRecords ++ countRecords ++
        [⟨end_type, start_address, []⟩] }

/-- The lines an S-Record conversion writes to the output file. -/
def SRecordConverter.lines (res : SRecResult) : List String :=
  res.srecords.map SRecordConverter.render

/-- Modelled from the spec: "address big-endian", "most significant
address byte first" — the address bytes of an S-Record address field as
the spec says they must be rendered, for widths of 2, 3 or 4 bytes. -/
def specBigEndianAddressBytes (address_bytes address : Nat) : List Nat :=
  match address_bytes with
  | 2 => [(address / 256) % 256, address % 256]
  | 3 => [(address / 65536) % 256, (address / 256) % 256, address % 256]
  | 4 => [(address / 16777216) % 256, (address / 65536) % 256,
          (address / 256) % 256, address % 256]
  | _ => []

/-- The 16-bit address fields the Intel data records must carry per the
source loop: starting at `current_address`, each record's field is the
low 16 bits of the 32-bit running address, advanced by the record's
payload length with uint32 wraparound. -/
def intelAddressChain (current_address : Nat) : List Nat → List Nat
  | [] => []
  | n :: ns => current_address % 65536 :: intelAddressChain ((current_address + n) % 4294967296) ns

/-! ### Helper lemmas -/

theorem list_foldl_add_eq_sum (l : List Nat) (n : Nat) : l.foldl (· + ·) n = n + l.sum := by
  induction l generalizing n with
  | nil => simp
  | cons a l ih => simp [List.foldl_cons, ih, List.sum_cons]; omega

/-! ### C2 -/

/-- C2 (counterexample): on buffer `[0x01,0x02,0x03,0x04]`, start address 0,
4 bytes per line, the Intel converter does NOT produce the line
`:0400000001020304F6` claimed by the spec (the correct checksum of that
record is `F2`, not `F6`). -/
theorem intel_concrete_scenario_claimed_lines_false :
    (IntelHexConverter.convert_to_hex [1, 2, 3, 4] 0 4 false).lines ≠
      [":0400000001020304F6", ":00000001FF"] := by
  decide

/-- C2 (amended): on buffer `[0x01,0x02,0x03,0x04]`, start address 0,
4 bytes per line, extended addressing disabled, the Intel converter
produces exactly the line `:0400000001020304F2` followed by `:00000001FF`. -/
theorem intel_concrete_scenario_actual_lines :
    (IntelHexConverter.convert_to_hex [1, 2, 3, 4] 0 4 false).lines =
      [":0400000001020304F2", ":00000001FF"] := by
  decide

/-! ### C1 -/

/-- C1 (code bug): the S-Record converter does not render 24-bit (or
32-bit) address fields big-endian.  For `address_size = 24`, start
address `0x012345`, buffer `[0xAA]`, the emitted S2 data record is
`S205234501AAE7`: the address field bytes are `[0x23, 0x45, 0x01]`
(bits 15-8, bits 7-0, bits 23-16), while the big-endian rendering the
spec — and the source's own comment "Address bytes (big endian)" —
requires is `[0x01, 0x23, 0x45]`. -/
theorem srec_address_field_scrambled_not_big_endian :
    (SRecordConverter.convert_to_srec 32 [170] 74565 24 []).srecords.headD ⟨0, 0, []⟩ =
      ⟨2, 74565, [170]⟩
    ∧ SRecordConverter.address_field_bytes 3 74565 = [35, 69, 1]
    ∧ specBigEndianAddressBytes 3 74565 = [1, 35, 69]
    ∧ SRecordConverter.address_field_bytes 3 74565 ≠ specBigEndianAddressBytes 3 74565
    ∧ SRecordConverter.lines (SRecordConverter.convert_to_srec 32 [170] 74565 24 []) =
        ["S205234501AAE7", "S50500010001F8", "S80423450192"] := by
  refine ⟨rfl, rfl, rfl, by decide, by decide⟩

/-! ### C3 -/

/-- C3 (counterexample): for the spec's own example (start address
`0x0000FFF0`, 32 bytes, 16 bytes per line, extended addressing enabled)
the converter emits TWO extended-linear-address records, not exactly
one: the tracker starts at the unset sentinel, so the initial high half
`0x0000` is itself announced before the first data record. -/
theorem extended_addressing_ela_count_is_two :
    ((IntelHexConverter.convert_records (List.replicate 32 0) 65520 16 true).map
        (fun r => r.recordType)) = [4, 0, 4, 0, 1]
    ∧ ((IntelHexConverter.convert_records (List.replicate 32 0) 65520 16 true).filter
        (fun r => r.recordType == 4)).length ≠ 1 := by
  constructor
  · decide
  · decide

set_option maxRecDepth 8000 in
/-- C7 (counterexample): for a 253-byte header the S0 record's byte-count
field is truncated by the `uint8_t` cast: it equals `(2 + 253 + 1) % 256
= 0`, not `address_bytes + payload length + 1 = 256`. -/
theorem srec_header_byte_count_truncated :
    ((SRecordConverter.convert_to_srec 32 [] 0 16 (List.replicate 253 65)).srecords.headD
        ⟨1, 0, []⟩).type = 0
    ∧ ((SRecordConverter.convert_to_srec 32 [] 0 16 (List.replicate 253 65)).srecords.headD
        ⟨1, 0, []⟩).data.length = 253
    ∧ SRecordConverter.byteCountField
        ((SRecordConverter.convert_to_srec 32 [] 0 16 (List.replicate 253 65)).srecords.headD
          ⟨1, 0, []⟩) = 0
    ∧ SRecordConverter.byteCountField
        ((SRecordConverter.convert_to_srec 32 [] 0 16 (List.replicate 253 65)).srecords.headD
          ⟨1, 0, []⟩) ≠
      SRecordConverter.get_address_bytes
        ((SRecordConverter.convert_to_srec 32 [] 0 16 (List.replicate 253 65)).srecords.headD
          ⟨1, 0, []⟩).type +
        ((SRecordConverter.convert_to_srec 32 [] 0 16 (List.replicate 253 65)).srecords.headD
          ⟨1, 0, []⟩).data.length + 1 := by
  refine ⟨rfl, by decide, by decide, by decide⟩

/-- Unfolding equation for one iteration of the Intel loop. -/
theorem intel_loop_cons_eq (fuel b : Nat) (bs : List Nat) (bpl cur ext : Nat)
    (useExt : Bool) :
    IntelHexConverter.convertLoop (fuel + 1) (b :: bs) bpl cur ext useExt =
      (if useExt && (cur / 65536 != ext) then
        [IntelHexConverter.extended_address_record cur] else []) ++
      ⟨(min (min bpl (b :: bs).length) (65536 - cur % 65536)) % 256, cur % 65536,
        IntelHexConverter.DATA_RECORD,
        (b :: bs).take (min (min bpl (b :: bs).length) (65536 - cur % 65536))⟩ ::
      IntelHexConverter.convertLoop fuel
        ((b :: bs).drop (min (min bpl (b :: bs).length) (65536 - cur % 65536))) bpl
        ((cur + min (min bpl (b :: bs).length) (65536 - cur % 65536)) % 4294967296)
        (if useExt && (cur / 65536 != ext) then cur / 65536 else ext) useExt := rfl

/-- With extended addressing disabled one iteration of the Intel loop
emits exactly one data record. -/
theorem intel_loop_cons_eq_no_ext (fuel b : Nat) (bs : List Nat) (bpl cur ext : Nat) :
    IntelHexConverter.convertLoop (fuel + 1) (b :: bs) bpl cur ext false =
      ⟨(min (min bpl (b :: bs).length) (65536 - cur % 65536)) % 256, cur % 65536,
        IntelHexConverter.DATA_RECORD,
        (b :: bs).take (min (min bpl (b :: bs).length) (65536 - cur % 65536))⟩ ::
      IntelHexConverter.convertLoop fuel
        ((b :: bs).drop (min (min bpl (b :: bs).length) (65536 - cur % 65536))) bpl
        ((cur + min (min bpl (b :: bs).length) (65536 - cur % 65536)) % 4294967296)
        ext false := rfl

/-- With extended addressing disabled, every record the Intel loop emits
is a data record. -/
theorem intel_loop_all_data (fuel : Nat) :
    ∀ (data : List Nat) (bpl cur ext : Nat) (r : IntelRecord),
      r ∈ IntelHexConverter.convertLoop fuel data bpl cur ext false →
      r.recordType = IntelHexConverter.DATA_RECORD := by
  induction fuel with
  | zero =>
    intro data bpl cur ext r h
    simp [IntelHexConverter.convertLoop] at h
  | succ n ih =>
    intro data bpl cur ext r h
    cases data with
    | nil => simp [IntelHexConverter.convertLoop] at h
    | cons b bs =>
      rw [intel_loop_cons_eq_no_ext] at h
      rcases List.mem_cons.mp h with h | h
      · rw [h]
      · exact ih _ _ _ _ _ h

/-- Every record the Intel loop emits is either an extended-address
record (type 4) or a data record whose payload fits both the configured
line width and the current 64 KiB page. -/
theorem intel_loop_data_bounds (fuel : Nat) :
    ∀ (data : List Nat) (bpl cur ext : Nat) (useExt : Bool) (r : IntelRecord),
      r ∈ IntelHexConverter.convertLoop fuel data bpl cur ext useExt →
      r.recordType = IntelHexConverter.DATA_RECORD →
      r.data.length ≤ bpl ∧ r.data.length ≤ 65536 - r.address := by
  induction fuel with
  | zero =>
    intro data bpl cur ext useExt r h _
    simp [IntelHexConverter.convertLoop] at h
  | succ n ih =>
    intro data bpl cur ext useExt r h hdata
    cases data with
    | nil => simp [IntelHexConverter.convertLoop] at h
    | cons b bs =>
      rw [intel_loop_cons_eq] at h
      rcases List.mem_append.mp h with h | h
      · by_cases hb : (useExt && (cur / 65536 != ext)) = true
        · rw [if_pos hb, List.mem_singleton] at h
          subst h
          simp [IntelHexConverter.extended_address_record,
            IntelHexConverter.EXTENDED_LINEAR_ADDRESS,
            IntelHexConverter.DATA_RECORD] at hdata
        · rw [if_neg hb] at h
          exact absurd h (List.not_mem_nil r)
      · rcases List.mem_cons.mp h with rfl | h
        · constructor
          · calc ((b :: bs).take (min (min bpl (b :: bs).length) (65536 - cur % 65536))).length
                ≤ min (min bpl (b :: bs).length) (65536 - cur % 65536) := by
                  rw [List.length_take]; exact Nat.min_le_left _ _
              _ ≤ min bpl (b :: bs).length := Nat.min_le_left _ _
              _ ≤ bpl := Nat.min_le_left _ _
          · calc ((b :: bs).take (min (min bpl (b :: bs).length) (65536 - cur % 65536))).length
                ≤ min (min bpl (b :: bs).length) (65536 - cur % 65536) := by
                  rw [List.length_take]; exact Nat.min_le_left _ _
              _ ≤ 65536 - cur % 65536 := Nat.min_le_right _ _
        · exact ih _ _ _ _ _ _ h hdata

/-- With extended addressing disabled the data-record address fields of
the Intel loop follow the running 32-bit address chain, truncated to the
low 16 bits. -/
theorem intel_loop_address_chain (fuel : Nat) :
    ∀ (data : List Nat) (bpl cur ext : Nat),
      (IntelHexConverter.convertLoop fuel data bpl cur ext false).map (fun r => r.address) =
        intelAddressChain cur
          ((IntelHexConverter.convertLoop fuel data bpl cur ext false).map
            (fun r => r.data.length)) := by
  induction fuel with
  | zero => intro data bpl cur ext; rfl
  | succ n ih =>
    intro data bpl cur ext
    cases data with
    | nil => rfl
    | cons b bs =>
      rw [intel_loop_cons_eq_no_ext]
      have hc : min (min bpl (b :: bs).length) (65536 - cur % 65536) ≤ (b :: bs).length :=
        Nat.le_trans (Nat.min_le_left _ _) (Nat.min_le_right _ _)
      have hlen : ((b :: bs).take (min (min bpl (b :: bs).length) (65536 - cur % 65536))).length =
          min (min bpl (b :: bs).length) (65536 - cur % 65536) := by
        rw [List.length_take]; exact Nat.min_eq_left hc
      simp only [List.map_cons, hlen, intelAddressChain]
      exact congrArg (List.cons (cur % 65536)) (ih _ _ _ _)

/-- With extended addressing disabled the Intel converter emits no
extended-linear-address record at all. -/
theorem intel_no_ext_ela_nil (binary_data : List Nat) (start_address bytes_per_line : Nat) :
    (IntelHexConverter.convert_records binary_data start_address bytes_per_line false).filter
      (fun r => r.recordType == IntelHexConverter.EXTENDED_LINEAR_ADDRESS) = [] := by
  rw [IntelHexConverter.convert_records, List.filter_append]
  have h1 : (IntelHexConverter.convertLoop binary_data.length binary_data
      (IntelHexConverter.clamp_bytes_per_line bytes_per_line) start_address 4294967295
      false).filter (fun r => r.recordType == IntelHexConverter.EXTENDED_LINEAR_ADDRESS) = [] := by
    rw [List.filter_eq_nil_iff]
    intro r hr
    have := intel_loop_all_data _ _ _ _ _ _ hr
    simp [this, IntelHexConverter.DATA_RECORD, IntelHexConverter.EXTENDED_LINEAR_ADDRESS]
  rw [h1]
  rfl

/-- With extended addressing disabled, filtering the Intel output for
data records gives back exactly the loop's records. -/
theorem intel_no_ext_data_filter (binary_data : List Nat) (start_address bytes_per_line : Nat) :
    (IntelHexConverter.convert_records binary_data start_address bytes_per_line false).filter
      (fun r => r.recordType == IntelHexConverter.DATA_RECORD) =
    IntelHexConverter.convertLoop binary_data.length binary_data
      (IntelHexConverter.clamp_bytes_per_line bytes_per_line) start_address 4294967295 false := by
  rw [IntelHexConverter.convert_records, List.filter_append]
  have h1 : (IntelHexConverter.convertLoop binary_data.length binary_data
      (IntelHexConverter.clamp_bytes_per_line bytes_per_line) start_address 4294967295
      false).filter (fun r => r.recordType == IntelHexConverter.DATA_RECORD) =
      IntelHexConverter.convertLoop binary_data.length binary_data
        (IntelHexConverter.clamp_bytes_per_line bytes_per_line) start_address 4294967295 false := by
    rw [List.filter_eq_self]
    intro r hr
    have := intel_loop_all_data _ _ _ _ _ _ hr
    simp [this, IntelHexConverter.DATA_RECORD]
  rw [h1]
  simp [IntelHexConverter.EOF_RECORD, IntelHexConverter.DATA_RECORD]

/-! ### C3 (amended), C4, C6, C10 -/

/-- C3 (amended): for a buffer straddling a 64 KiB boundary
(start address `0x0000FFF0`, 32 bytes, 16 bytes per line) with extended
addressing enabled, the converter emits exactly two
extended-linear-address records: one before the first data record (the
high-half tracker starts at the unset sentinel, so the initial high half
`0x0000` is announced) and exactly one, carrying the new high half
`0x0001`, immediately before the data record that crosses into the next
64 KiB page; with extended addressing disabled it emits zero
extended-linear-address records for every buffer and start address. -/
theorem extended_addressing_ela_records_characterized :
    (IntelHexConverter.convert_records (List.replicate 32 0) 65520 16 true).map
        (fun r => (r.recordType, r.address, r.data)) =
      [(4, 0, [0, 0]), (0, 65520, List.replicate 16 0), (4, 0, [0, 1]),
       (0, 0, List.replicate 16 0), (1, 0, [])]
    ∧ ∀ (binary_data : List Nat) (start_address bytes_per_line : Nat),
        (IntelHexConverter.convert_records binary_data start_address bytes_per_line
            false).filter
          (fun r => r.recordType == IntelHexConverter.EXTENDED_LINEAR_ADDRESS) = [] := by
  constructor
  · decide
  · intro binary_data start_address bytes_per_line
    exact intel_no_ext_ela_nil binary_data start_address bytes_per_line

/-- C4: for every record the Intel converter emits — data,
extended-linear-address and end-of-file alike — the rendered line ends
with the checksum byte `(256 − (S mod 256)) mod 256`, where `S` is the
sum of the byte count, the high address byte, the low address byte, the
record type and every payload byte. -/
theorem intel_record_checksum_formula (binary_data : List Nat)
    (start_address bytes_per_line : Nat) (use_extended_address : Bool) (r : IntelRecord)
    (_h : r ∈ IntelHexConverter.convert_records binary_data start_address bytes_per_line
      use_extended_address) :
    ∃ p : String, IntelHexConverter.render r =
      p ++ BinaryUtils.byte_to_hex
        ((256 - (r.byteCount + (r.address / 256) % 256 + r.address % 256 + r.recordType +
          r.data.sum) % 256) % 256) := by
  refine ⟨":" ++ BinaryUtils.byte_to_hex r.byteCount
    ++ BinaryUtils.byte_to_hex ((r.address / 256) % 256)
    ++ BinaryUtils.byte_to_hex (r.address % 256)
    ++ BinaryUtils.byte_to_hex r.recordType
    ++ String.join (r.data.map BinaryUtils.byte_to_hex), ?_⟩
  simp only [IntelHexConverter.render, IntelHexConverter.generate_record,
    IntelHexConverter.calculate_checksum, list_foldl_add_eq_sum, Nat.zero_add]

/-- Witness for C4: the end-of-file record emitted for the empty buffer,
whose checksum byte is `0xFF`. -/
theorem intel_record_checksum_formula_witness :
    ∃ p : String, IntelHexConverter.render ⟨0, 0, 1, []⟩ =
      p ++ BinaryUtils.byte_to_hex 255 :=
  intel_record_checksum_formula [] 0 16 false ⟨0, 0, 1, []⟩ (by decide)

/-- C6: for every buffer, start address and configured line width (the
contract range starts at 1), every data record the Intel converter emits
has payload length at most the configured bytes-per-line and at most
`0x10000 − (address & 0xFFFF)`, so its address range never crosses a
64 KiB page boundary. -/
theorem intel_data_record_length_bounds (binary_data : List Nat)
    (start_address bytes_per_line : Nat) (use_extended_address : Bool)
    (hbpl : 1 ≤ bytes_per_line) (r : IntelRecord)
    (h : r ∈ IntelHexConverter.convert_records binary_data start_address bytes_per_line
      use_extended_address)
    (hdata : r.recordType = IntelHexConverter.DATA_RECORD) :
    r.data.length ≤ bytes_per_line ∧ r.data.length ≤ 65536 - r.address := by
  rw [IntelHexConverter.convert_records] at h
  rcases List.mem_append.mp h with h | h
  · have hb := intel_loop_data_bounds _ _ _ _ _ _ _ h hdata
    refine ⟨Nat.le_trans hb.1 ?_, hb.2⟩
    rw [IntelHexConverter.clamp_bytes_per_line]
    exact Nat.max_le.mpr ⟨hbpl, Nat.min_le_right _ _⟩
  · rw [List.mem_singleton] at h
    subst h
    simp [IntelHexConverter.EOF_RECORD, IntelHexConverter.DATA_RECORD] at hdata

/-- Witness for C6: the single data record of the concrete scenario
buffer `[1,2,3,4]` with 4 bytes per line. -/
theorem intel_data_record_length_bounds_witness :
    (IntelRecord.mk 4 0 0 [1, 2, 3, 4]).data.length ≤ 4 ∧
    (IntelRecord.mk 4 0 0 [1, 2, 3, 4]).data.length ≤
      65536 - (IntelRecord.mk 4 0 0 [1, 2, 3, 4]).address :=
  intel_data_record_length_bounds [1, 2, 3, 4] 0 4 false (by decide)
    ⟨4, 0, 0, [1, 2, 3, 4]⟩ (by decide) rfl

/-- C10: with extended addressing disabled the Intel conversion still
succeeds for every buffer and start address, emits no
extended-linear-address record, and every data record's 16-bit address
field is the low 16 bits of the running 32-bit address (start address
advanced, with uint32 wraparound, by the payload lengths of the
preceding data records): addresses at or above `0x10000` are silently
truncated. -/
theorem intel_disabled_extended_truncates_addresses (binary_data : List Nat)
    (start_address bytes_per_line : Nat) :
    (IntelHexConverter.convert_to_hex binary_data start_address bytes_per_line
        false).success = true
    ∧ (IntelHexConverter.convert_records binary_data start_address bytes_per_line
        false).filter
        (fun r => r.recordType == IntelHexConverter.EXTENDED_LINEAR_ADDRESS) = []
    ∧ ((IntelHexConverter.convert_records binary_data start_address bytes_per_line
        false).filter (fun r => r.recordType == IntelHexConverter.DATA_RECORD)).map
        (fun r => r.address) =
      intelAddressChain start_address
        (((IntelHexConverter.convert_records binary_data start_address bytes_per_line
            false).filter (fun r => r.recordType == IntelHexConverter.DATA_RECORD)).map
          (fun r => r.data.length)) := by
  refine ⟨rfl, intel_no_ext_ela_nil binary_data start_address bytes_per_line, ?_⟩
  rw [intel_no_ext_data_filter]
  exact intel_loop_address_chain _ _ _ _ _

/-! ### S-Record helper lemmas -/

/-- Unfolding equation for one iteration of the S-Record data loop. -/
theorem srec_loop_cons_eq (fuel b : Nat) (bs : List Nat) (bpl cur dt : Nat) :
    SRecordConverter.dataLoop (fuel + 1) (b :: bs) bpl cur dt =
      ⟨dt, cur, (b :: bs).take
        (min (min bpl (b :: bs).length)
          (255 - SRecordConverter.get_address_bytes dt - 1))⟩ ::
      SRecordConverter.dataLoop fuel
        ((b :: bs).drop (min (min bpl (b :: bs).length)
          (255 - SRecordConverter.get_address_bytes dt - 1))) bpl
        ((cur + min (min bpl (b :: bs).length)
          (255 - SRecordConverter.get_address_bytes dt - 1)) % 4294967296) dt := rfl

/-- Every record the S-Record data loop emits has the configured data
type and a payload short enough for the single-byte length field. -/
theorem srec_loop_mem (fuel : Nat) :
    ∀ (data : List Nat) (bpl cur dt : Nat) (r : SRecord),
      r ∈ SRecordConverter.dataLoop fuel data bpl cur dt →
      r.type = dt ∧ r.data.length ≤ 255 - SRecordConverter.get_address_bytes dt - 1 := by
  induction fuel with
  | zero =>
    intro data bpl cur dt r h
    simp [SRecordConverter.dataLoop] at h
  | succ n ih =>
    intro data bpl cur dt r h
    cases data with
    | nil => simp [SRecordConverter.dataLoop] at h
    | cons b bs =>
      rw [srec_loop_cons_eq] at h
      rcases List.mem_cons.mp h with rfl | h
      · refine ⟨rfl, ?_⟩
        calc ((b :: bs).take (min (min bpl (b :: bs).length)
              (255 - SRecordConverter.get_address_bytes dt - 1))).length
            ≤ min (min bpl (b :: bs).length)
              (255 - SRecordConverter.get_address_bytes dt - 1) := by
              rw [List.length_take]; exact Nat.min_le_left _ _
          _ ≤ 255 - SRecordConverter.get_address_bytes dt - 1 := Nat.min_le_right _ _
      · exact ih _ _ _ _ _ h

/-- `get_address_bytes` is always between 2 and 4. -/
theorem get_address_bytes_le_four (t : Nat) :
    2 ≤ SRecordConverter.get_address_bytes t ∧ SRecordConverter.get_address_bytes t ≤ 4 := by
  unfold SRecordConverter.get_address_bytes
  split <;> omega

/-- Every record `convert_to_srec` emits is either the header record or
has `address_bytes + payload length + 1 ≤ 255`. -/
theorem srec_mem_head_or_small (bytes_per_line : Nat) (binary_data : List Nat)
    (start_address address_size : Nat) (header : List Nat) (r : SRecord)
    (h : r ∈ (SRecordConverter.convert_to_srec bytes_per_line binary_data start_address
      address_size header).srecords) :
    (r.type = SRecordConverter.S0_HEADER ∧ r.data = header) ∨
      SRecordConverter.get_address_bytes r.type + r.data.length + 1 ≤ 255 := by
  unfold SRecordConverter.convert_to_srec at h
  split at h
  · simp at h
  · simp only [List.mem_append] at h
    rcases h with ((h | h) | h) | h
    · by_cases hh : header ≠ []
      · rw [if_pos hh, List.mem_singleton] at h
        subst h
        exact Or.inl ⟨rfl, rfl⟩
      · rw [if_neg hh] at h
        exact absurd h (List.not_mem_nil r)
    · have hb := srec_loop_mem _ _ _ _ _ _ h
      have hab := get_address_bytes_le_four
        (SRecordConverter.get_data_record_type address_size)
      rw [hb.1]
      right
      omega
    · by_cases hc : (SRecordConverter.dataLoop binary_data.length binary_data
          (SRecordConverter.clamp_bytes_per_line bytes_per_line) start_address
          (SRecordConverter.get_data_record_type address_size)).length % 4294967296 ≤ 65535
      · rw [if_pos hc, List.mem_singleton] at h
        subst h
        right
        simp [SRecordConverter.get_address_bytes, SRecordConverter.S5_COUNT_16]
      · rw [if_neg hc] at h
        exact absurd h (List.not_mem_nil r)
    · rw [List.mem_singleton] at h
      subst h
      have hab := get_address_bytes_le_four
        (SRecordConverter.get_end_record_type address_size)
      right
      simp only [List.length_nil]
      omega

/-- `calculate_checksum` rewritten through the list of address bytes the
record actually carries. -/
theorem srec_checksum_eq_formula (byte_count address address_bytes : Nat)
    (data : List Nat) :
    SRecordConverter.calculate_checksum byte_count address address_bytes data =
      255 - ((byte_count +
        (SRecordConverter.address_field_bytes address_bytes address).sum +
        data.sum) % 256) := by
  unfold SRecordConverter.calculate_checksum SRecordConverter.address_field_bytes
  by_cases h2 : 2 ≤ address_bytes <;> by_cases h3 : 3 ≤ address_bytes <;>
    by_cases h4 : 4 ≤ address_bytes <;>
      simp [h2, h3, h4, list_foldl_add_eq_sum] <;> omega

/-! ### C5, C7 (amended), C8, C9 -/

/-- C5: for every S-Record the converter emits — header, data, count and
end records alike — the rendered line ends with the checksum byte
`~S & 0xFF` (that is, `255 − (S mod 256)`), where `S` is the sum of the
byte-count field, every address byte actually present for the record's
type, and every payload byte. -/
theorem srec_record_checksum_formula (bytes_per_line : Nat) (binary_data : List Nat)
    (start_address address_size : Nat) (header : List Nat) (r : SRecord)
    (_h : r ∈ (SRecordConverter.convert_to_srec bytes_per_line binary_data start_address
      address_size header).srecords) :
    ∃ p : String, SRecordConverter.render r =
      p ++ BinaryUtils.byte_to_hex
        (255 - ((SRecordConverter.byteCountField r +
          (SRecordConverter.address_field_bytes
            (SRecordConverter.get_address_bytes r.type) r.address).sum +
          r.data.sum) % 256)) := by
  refine ⟨"S" ++ toString r.type
    ++ BinaryUtils.byte_to_hex (SRecordConverter.byteCountField r)
    ++ String.join ((SRecordConverter.address_field_bytes
        (SRecordConverter.get_address_bytes r.type) r.address).map BinaryUtils.byte_to_hex)
    ++ String.join (r.data.map BinaryUtils.byte_to_hex), ?_⟩
  simp only [SRecordConverter.render, SRecordConverter.generate_record,
    SRecordConverter.byteCountField, srec_checksum_eq_formula]

/-- Witness for C5: the S9 end record emitted for the empty buffer at
address 0, whose checksum byte is `0xFC`. -/
theorem srec_record_checksum_formula_witness :
    ∃ p : String, SRecordConverter.render ⟨9, 0, []⟩ =
      p ++ BinaryUtils.byte_to_hex 252 :=
  srec_record_checksum_formula 32 [] 0 16 [] ⟨9, 0, []⟩ (by decide)

/-- C7 (amended): for every S-Record emitted, the byte-count field equals
`(address_bytes(type) + payload length + 1) mod 256`; the `mod 256` is
the `uint8_t` truncation, and the equality is exact for every non-header
record and for every header record whose payload is at most 252 bytes. -/
theorem srec_byte_count_field_formula (bytes_per_line : Nat) (binary_data : List Nat)
    (start_address address_size : Nat) (header : List Nat) (r : SRecord)
    (h : r ∈ (SRecordConverter.convert_to_srec bytes_per_line binary_data start_address
      address_size header).srecords) :
    SRecordConverter.byteCountField r =
      (SRecordConverter.get_address_bytes r.type + r.data.length + 1) % 256
    ∧ ((r.type ≠ SRecordConverter.S0_HEADER ∨ r.data.length ≤ 252) →
        SRecordConverter.byteCountField r =
          SRecordConverter.get_address_bytes r.type + r.data.length + 1) := by
  refine ⟨rfl, ?_⟩
  intro hc
  rcases srec_mem_head_or_small bytes_per_line binary_data start_address address_size header r h
    with ⟨ht, _⟩ | hb
  · rcases hc with hne | hlen
    · exact absurd ht hne
    · rw [SRecordConverter.byteCountField, ht]
      have h0 : SRecordConverter.get_address_bytes SRecordConverter.S0_HEADER = 2 := rfl
      rw [h0]
      exact Nat.mod_eq_of_lt (by omega)
  · rw [SRecordConverter.byteCountField]
    exact Nat.mod_eq_of_lt (by omega)

/-- Witness for C7 (amended): the S1 data record of buffer `[1,2,3,4]`
at address 0 with 16-bit addressing, whose byte-count field is 7. -/
theorem srec_byte_count_field_formula_witness :
    SRecordConverter.byteCountField ⟨1, 0, [1, 2, 3, 4]⟩ =
      (SRecordConverter.get_address_bytes (SRecord.mk 1 0 [1, 2, 3, 4]).type +
        (SRecord.mk 1 0 [1, 2, 3, 4]).data.length + 1) % 256
    ∧ (((SRecord.mk 1 0 [1, 2, 3, 4]).type ≠ SRecordConverter.S0_HEADER ∨
        (SRecord.mk 1 0 [1, 2, 3, 4]).data.length ≤ 252) →
        SRecordConverter.byteCountField ⟨1, 0, [1, 2, 3, 4]⟩ =
          SRecordConverter.get_address_bytes (SRecord.mk 1 0 [1, 2, 3, 4]).type +
            (SRecord.mk 1 0 [1, 2, 3, 4]).data.length + 1) :=
  srec_byte_count_field_formula 32 [1, 2, 3, 4] 0 16 [] ⟨1, 0, [1, 2, 3, 4]⟩ (by decide)

/-- C8: for every buffer, start address, header and line width, an
address size outside `{16, 24, 32}` makes `convert_to_srec` fail with
the invalid-parameter message and emit zero record lines. -/
theorem srec_invalid_address_size_rejected (bytes_per_line : Nat) (binary_data : List Nat)
    (start_address address_size : Nat) (header : List Nat)
    (h : address_size ≠ 16 ∧ address_size ≠ 24 ∧ address_size ≠ 32) :
    (SRecordConverter.convert_to_srec bytes_per_line binary_data start_address address_size
        header).success = false
    ∧ (SRecordConverter.convert_to_srec bytes_per_line binary_data start_address address_size
        header).last_error = "Invalid address size. Must be 16, 24, or 32 bits."
    ∧ (SRecordConverter.convert_to_srec bytes_per_line binary_data start_address address_size
        header).srecords = []
    ∧ SRecordConverter.lines (SRecordConverter.convert_to_srec bytes_per_line binary_data
        start_address address_size header) = [] := by
  unfold SRecordConverter.convert_to_srec
  rw [if_pos h]
  exact ⟨rfl, rfl, rfl, rfl⟩

/-- Witness for C8: address size 20 is rejected. -/
theorem srec_invalid_address_size_rejected_witness :
    (SRecordConverter.convert_to_srec 32 [1, 2, 3] 0 20 [72]).success = false
    ∧ (SRecordConverter.convert_to_srec 32 [1, 2, 3] 0 20 [72]).last_error =
        "Invalid address size. Must be 16, 24, or 32 bits."
    ∧ (SRecordConverter.convert_to_srec 32 [1, 2, 3] 0 20 [72]).srecords = []
    ∧ SRecordConverter.lines (SRecordConverter.convert_to_srec 32 [1, 2, 3] 0 20 [72]) = [] :=
  srec_invalid_address_size_rejected 32 [1, 2, 3] 0 20 [72]
    ⟨by decide, by decide, by decide⟩

/-- C9: an empty input buffer yields, for every start address and
configuration, exactly one end-of-file record from the Intel converter
(the line `:00000001FF`), and from the S-Record converter exactly the
optional header record (present iff a non-empty header is given), the
count record (count 0), and the end record. -/
theorem empty_buffer_terminator_only :
    (∀ (start_address bytes_per_line : Nat) (use_extended_address : Bool),
        (IntelHexConverter.convert_to_hex [] start_address bytes_per_line
            use_extended_address).lines = [":00000001FF"]
        ∧ IntelHexConverter.convert_records [] start_address bytes_per_line
            use_extended_address = [⟨0, 0, IntelHexConverter.EOF_RECORD, []⟩])
    ∧ ∀ (bytes_per_line start_address address_size : Nat) (header : List Nat),
        address_size = 16 ∨ address_size = 24 ∨ address_size = 32 →
        (SRecordConverter.convert_to_srec bytes_per_line [] start_address address_size
            header).srecords =
          (if header ≠ [] then [⟨SRecordConverter.S0_HEADER, 0, header⟩] else []) ++
          [⟨SRecordConverter.S5_COUNT_16, 0, [0, 0]⟩,
           ⟨SRecordConverter.get_end_record_type address_size, start_address, []⟩] := by
  constructor
  · intro start_address bytes_per_line use_extended_address
    exact ⟨rfl, rfl⟩
  · intro bytes_per_line start_address address_size header hsz
    rcases hsz with rfl | rfl | rfl
    all_goals
      unfold SRecordConverter.convert_to_srec
      rw [if_neg (by decide)]
      by_cases hh : header ≠ []
      · rw [if_pos hh]
        simp [SRecordConverter.dataLoop]
      · rw [if_neg hh]
        simp [SRecordConverter.dataLoop]

/-- Witness for C9: the empty buffer with start address 0, 16-bit
S-Record addressing and header "Hi". -/
theorem empty_buffer_terminator_only_witness :
    ((IntelHexConverter.convert_to_hex [] 0 16 false).lines = [":00000001FF"]
      ∧ IntelHexConverter.convert_records [] 0 16 false =
          [⟨0, 0, IntelHexConverter.EOF_RECORD, []⟩])
    ∧ (SRecordConverter.convert_to_srec 32 [] 0 16 [72, 105]).srecords =
        (if ([72, 105] : List Nat) ≠ [] then
          [⟨SRecordConverter.S0_HEADER, 0, [72, 105]⟩] else []) ++
        [⟨SRecordConverter.S5_COUNT_16, 0, [0, 0]⟩,
         ⟨SRecordConverter.get_end_record_type 16, 0, []⟩] :=
  ⟨empty_buffer_terminator_only.1 0 16 false,
   empty_buffer_terminator_only.2 32 0 16 [72, 105] (Or.inl rfl)⟩
